import Mathlib

/-!
Shallow embedding of posix_translation/local_socket.cc (ARC local AF_UNIX
socket emulation) together with theorems settling the frozen claims about it.

Conventions used throughout:
* Byte strings (payloads, sun_path contents, socket names) are List Nat.
* File descriptors are Int (C ints).
* The C return convention (-1 plus errno, or a count) is Except Errno Nat.
* The cmsg wire macros use the LP64 Linux values: CMSG_ALIGN rounds to 8,
  sizeof(struct cmsghdr) = 16, sizeof(int) = 4, sizeof(struct ucred) = 12.
* Code outside src/ (VirtualFileSystem registries, FD table, IsClosed) is
  represented by explicit parameters or, where behaviour matters, by
  definitions modelled from the spec (marked as such in their doc comments).
-/

namespace LocalSocketModel

inductive SocketType
  | stream
  | dgram
  | seqpacket
deriving DecidableEq, Repr

inductive StreamDir
  | readOnly
  | writeOnly
  | readWrite
deriving DecidableEq, Repr

inductive ConnectState
  | new
  | connecting
  | connected
  | listening
deriving DecidableEq, Repr

inductive Errno
  | EINVAL
  | EISCONN
  | ENOSYS
  | EOPNOTSUPP
  | ECONNREFUSED
  | ECONNRESET
  | EAGAIN
  | EBADF
  | EMFILE
  | ESPIPE
  | EADDRINUSE
deriving DecidableEq, Repr

instance instDecEqExcept {ε α : Type} [DecidableEq ε] [DecidableEq α] :
    DecidableEq (Except ε α) := fun x y =>
  match x, y with
  | .ok a, .ok b =>
    if h : a = b then .isTrue (by rw [h])
    else .isFalse (by intro hc; cases hc; exact h rfl)
  | .error a, .error b =>
    if h : a = b then .isTrue (by rw [h])
    else .isFalse (by intro hc; cases hc; exact h rfl)
  | .ok _, .error _ => .isFalse (by intro hc; cases hc)
  | .error _, .ok _ => .isFalse (by intro hc; cases hc)

/-- Credentials triple, struct ucred. -/
structure Ucred where
  pid : Int
  uid : Int
  gid : Int
deriving DecidableEq, Repr

/-- One queued datagram: payload bytes plus the sender credentials,
LocalSocket::Datagram in the source. -/
structure Datagram where
  cred : Ucred
  content : List Nat
deriving DecidableEq, Repr

/-- State of one LocalSocket endpoint.  Field names follow the C++ members
(with the trailing underscore dropped).  peer is the optional id of the peer
endpoint; the peer object itself is passed separately to the operations that
dereference it.  is_block captures SocketStream::is_block() (the O_NONBLOCK
bit of oflag). -/
structure LocalSocket where
  socket_type : SocketType
  stream_dir : StreamDir
  connect_state : ConnectState
  is_block : Bool
  buffer : List Nat
  buffer_capacity : Nat
  queue : List Datagram
  cmsg_fd_queue : List (List Int)
  peer : Option Nat
  abstract_name : List Nat
  logd_name : List Nat
  logd_target_name : List Nat
  connection_backlog : Int
  connection_queue : List Nat
  my_cred : Ucred
  peer_cred : Ucred
  pass_cred : Int
deriving DecidableEq, Repr

/-- 224K, the kBufferSize constant of the source. -/
def kBufferSize : Nat := 224 * 1024

/-- offsetof(struct sockaddr_un, sun_path): the two bytes of sun_family. -/
def kSunPathOffset : Nat := 2

def AF_UNIX : Int := 1
def SOL_SOCKET : Int := 1
def SCM_RIGHTS : Int := 1
def SCM_CREDENTIALS : Int := 2

/-- CMSG_ALIGN on LP64: round up to a multiple of 8. -/
def cmsgAlign (n : Nat) : Nat := ((n + 7) / 8) * 8

/-- sizeof(struct cmsghdr) on LP64 Linux. -/
def sizeofCmsghdr : Nat := 16

/-- sizeof(int). -/
def sizeofInt : Nat := 4

/-- sizeof(struct ucred): three 4-byte fields. -/
def sizeofUcred : Nat := 12

/-- CMSG_LEN(payload) = CMSG_ALIGN(sizeof(struct cmsghdr)) + payload. -/
def cmsgLen (payload : Nat) : Nat := cmsgAlign sizeofCmsghdr + payload

/-- CMSG_SPACE(payload) = CMSG_ALIGN(sizeof(struct cmsghdr)) + CMSG_ALIGN(payload). -/
def cmsgSpace (payload : Nat) : Nat := cmsgAlign sizeofCmsghdr + cmsgAlign payload

/-- The LocalSocket constructor (LocalSocket::LocalSocket).  The ring buffer
capacity is set only for SOCK_STREAM sockets that are not WRITE_ONLY; my_cred
is snapshotted from the process emulator (pid, uid, gid = uid); peer_cred
defaults to (0, -1, -1) until a peer is set. -/
def LocalSocket.init (isBlock : Bool) (socketType : SocketType)
    (streamDir : StreamDir) (pid uid : Int) : LocalSocket where
  socket_type := socketType
  stream_dir := streamDir
  connect_state := .new
  is_block := isBlock
  buffer := []
  buffer_capacity :=
    if socketType = .stream ∧ streamDir ≠ .writeOnly then kBufferSize else 0
  queue := []
  cmsg_fd_queue := []
  peer := none
  abstract_name := []
  logd_name := []
  logd_target_name := []
  connection_backlog := 0
  connection_queue := []
  my_cred := ⟨pid, uid, uid⟩
  peer_cred := ⟨0, -1, -1⟩
  pass_cred := 0

/-- LocalSocket::set_peer: record the peer link, move to CONNECTED and cache
the peer's my_cred as peer_cred. -/
def LocalSocket.set_peer (s : LocalSocket) (peerId : Nat) (p : LocalSocket) :
    LocalSocket :=
  { s with peer := some peerId, connect_state := .connected,
           peer_cred := p.my_cred }

/-- getsockopt(SOL_SOCKET, SO_PEERCRED) copies out the cached peer_cred.
VerifyGetSocketOption (pointer validation, not under src/) and the
min(optlen, sizeof) truncation of the memcpy are not modelled; this is the
value the full struct read returns. -/
def LocalSocket.getsockoptPeercred (s : LocalSocket) : Ucred := s.peer_cred

/-- A sockaddr_un: the family field plus the raw sun_path byte array. -/
structure SockaddrUn where
  sun_family : Int
  sun_path : List Nat
deriving DecidableEq, Repr

/-- LocalSocket::ValidateSockaddr: family must be AF_UNIX and addrlen must
cover at least one sun_path byte. -/
def validateSockaddr (addr : SockaddrUn) (addrlen : Nat) : Bool :=
  addr.sun_family = AF_UNIX ∧ kSunPathOffset + 1 ≤ addrlen

/-- strnlen over a byte list: length of the prefix before the first NUL,
capped at maxlen. -/
def strnlenBytes : List Nat → Nat → Nat
  | [], _ => 0
  | _, 0 => 0
  | b :: rest, m + 1 => if b = 0 then 0 else strnlenBytes rest m + 1

/-- LocalSocket::ConvertSockaddrToName: a pathname (logd) name is present iff
sun_path[0] is not NUL; the name is the C string in sun_path, bounded by
addrlen - offsetof(sun_path). -/
def convertSockaddrToName (addr : SockaddrUn) (addrlen : Nat) :
    Option (List Nat) :=
  if addr.sun_path.headD 0 = 0 then none
  else some (addr.sun_path.take
    (strnlenBytes addr.sun_path (addrlen - kSunPathOffset)))

/-- LocalSocket::ConvertSockaddrToAbstractName: an abstract name is present
iff sun_path[0] is NUL; the name is the following
addrlen - offsetof(sun_path) - 1 bytes verbatim. -/
def convertSockaddrToAbstractName (addr : SockaddrUn) (addrlen : Nat) :
    Option (List Nat) :=
  if addr.sun_path.headD 0 ≠ 0 then none
  else some ((addr.sun_path.drop 1).take (addrlen - kSunPathOffset - 1))

/-- A socket name registry: an association list from name to endpoint id. -/
abbrev Registry := List (List Nat × Nat)

def regLookup : Registry → List Nat → Option Nat
  | [], _ => none
  | (n, i) :: rest, name => if n = name then some i else regLookup rest name

/-- Modelled from the spec: the VirtualFileSystem socket namespaces
(GetAbstractSocketNamespace / GetLogdSocketNamespace, class LocalSocketNamespace)
are not under src/.  Per the spec (section 4.2), Bind(name, endpoint)
associates name with the endpoint and fails with EADDRINUSE if the name is
taken by a live endpoint; Lookup finds the endpoint bound to a name. -/
def regBind (r : Registry) (name : List Nat) (id : Nat) :
    Except Errno Registry :=
  if (regLookup r name).isSome then .error .EADDRINUSE
  else .ok ((name, id) :: r)

/-- The two process-wide name registries consulted by bind/connect/sendmsg. -/
structure BindEnv where
  logdReg : Registry
  abstractReg : Registry
deriving DecidableEq, Repr

/-- Result of LocalSocket::bind. -/
structure BindOut where
  result : Except Errno Unit
  sock : LocalSocket
  env : BindEnv
deriving Repr

/-- LocalSocket::bind: validate the sockaddr, refuse (EINVAL) if the endpoint
already has any name, then register either the pathname (logd) or the
abstract name in the corresponding registry; on registry success record the
name on the endpoint. -/
def LocalSocket.bind (s : LocalSocket) (selfId : Nat) (env : BindEnv)
    (addr : SockaddrUn) (addrlen : Nat) : BindOut :=
  if ¬ validateSockaddr addr addrlen then ⟨.error .EINVAL, s, env⟩
  else if s.abstract_name ≠ [] ∨ s.logd_name ≠ [] then ⟨.error .EINVAL, s, env⟩
  else
    match convertSockaddrToName addr addrlen with
    | some name =>
      match regBind env.logdReg name selfId with
      | .ok r => ⟨.ok (), { s with logd_name := name }, { env with logdReg := r }⟩
      | .error e => ⟨.error e, s, env⟩
    | none =>
      match convertSockaddrToAbstractName addr addrlen with
      | some name =>
        match regBind env.abstractReg name selfId with
        | .ok r =>
          ⟨.ok (), { s with abstract_name := name }, { env with abstractReg := r }⟩
        | .error e => ⟨.error e, s, env⟩
      | none => ⟨.error .ENOSYS, s, env⟩

/-- LocalSocket::listen: EOPNOTSUPP for DGRAM, EINVAL when unbound, otherwise
record the backlog and move to LISTENING. -/
def LocalSocket.listen (s : LocalSocket) (backlog : Int) :
    Except Errno Unit × LocalSocket :=
  if s.socket_type = .dgram then (.error .EOPNOTSUPP, s)
  else if s.abstract_name = [] ∧ s.logd_name = [] then (.error .EINVAL, s)
  else (.ok (),
    { s with connect_state := .listening, connection_backlog := backlog })

/-- LocalSocket::HandleConnectLocked, run on the connect target: for
STREAM/SEQPACKET it requires the LISTENING state and refuses when
connection_backlog_ == connection_queue_.size(); otherwise the client id is
appended to the pending-connection queue.  Returns the C++ bool result and
the updated target. -/
def LocalSocket.handleConnectLocked (s : LocalSocket) (clientId : Nat) :
    Bool × LocalSocket :=
  if s.socket_type = .stream ∨ s.socket_type = .seqpacket then
    if s.connect_state ≠ .listening then (false, s)
    else if s.connection_backlog = (s.connection_queue.length : Int) then
      (false, s)
    else (true, { s with connection_queue := s.connection_queue ++ [clientId] })
  else (true, s)

/-- Result of LocalSocket::connect.  self is the caller's endpoint state at
the point of return (or at the point where WaitForLocalSocketConnect starts
waiting, in which case blocked is true and result .ok stands for the 0
eventually returned once an accept pairs the endpoint); target is the updated
connect target, when one was found. -/
structure ConnectOut where
  result : Except Errno Unit
  self : LocalSocket
  target : Option (Nat × LocalSocket)
  blocked : Bool
deriving Repr

/-- LocalSocket::connect.  getSock resolves a registry id to its endpoint
(the scoped_refptr the namespace hands back).  Mirrors the source order:
EISCONN on CONNECTED/LISTENING, ENOSYS for non-blocking non-DGRAM, sockaddr
validation, logd then abstract lookup, ECONNREFUSED when unresolved or on a
socket-type mismatch or when HandleConnectLocked refuses; on success
logd_target_name_ is set to the (possibly empty) logd name and
WaitForLocalSocketConnect moves a STREAM/SEQPACKET caller to CONNECTING. -/
def LocalSocket.connect (s : LocalSocket) (selfId : Nat) (env : BindEnv)
    (getSock : Nat → Option LocalSocket) (addr : SockaddrUn) (addrlen : Nat) :
    ConnectOut :=
  if s.connect_state = .connected ∨ s.connect_state = .listening then
    ⟨.error .EISCONN, s, none, false⟩
  else if s.socket_type ≠ .dgram ∧ ¬ s.is_block then
    ⟨.error .ENOSYS, s, none, false⟩
  else if ¬ validateSockaddr addr addrlen then ⟨.error .EINVAL, s, none, false⟩
  else
    let looked : Option (List Nat × Option Nat) :=
      match convertSockaddrToName addr addrlen with
      | some nm => some (nm, regLookup env.logdReg nm)
      | none =>
        match convertSockaddrToAbstractName addr addrlen with
        | some nm => some ([], regLookup env.abstractReg nm)
        | none => none
    match looked with
    | none => ⟨.error .ENOSYS, s, none, false⟩
    | some (logdNm, tid?) =>
      match tid?.bind (fun tid => (getSock tid).map (fun t => (tid, t))) with
      | none => ⟨.error .ECONNREFUSED, s, none, false⟩
      | some (tid, t) =>
        if t.socket_type ≠ s.socket_type then
          ⟨.error .ECONNREFUSED, s, some (tid, t), false⟩
        else
          match t.handleConnectLocked selfId with
          | (false, t1) => ⟨.error .ECONNREFUSED, s, some (tid, t1), false⟩
          | (true, t1) =>
            let s1 := { s with logd_target_name := logdNm }
            if s.socket_type = .stream ∨ s.socket_type = .seqpacket then
              ⟨.ok (), { s1 with connect_state := .connecting },
                some (tid, t1), true⟩
            else ⟨.ok (), s1, some (tid, t1), false⟩

/-- A parsed control message header on the send side: level, type and the
payload read as an array of ints (the wire fds for SCM_RIGHTS; ignored for
every other kind).  This models a well-formed header as iterated by
CMSG_FIRSTHDR / CMSG_NXTHDR, with cmsg_len = CMSG_LEN(sizeofInt * fds.length)
so that the source's cmsg_len >= CMSG_LEN(0) guard always passes. -/
structure Cmsg where
  cmsg_level : Int
  cmsg_type : Int
  fds : List Int
deriving DecidableEq, Repr

/-- The sender's struct msghdr: scatter/gather payload buffers, the
msg_controllen byte count and the control headers the CMSG macros yield when
iterating the control buffer (empty when msg_controllen is too small to hold
a header). -/
structure SendMsg where
  iov : List (List Nat)
  controllen : Nat
  cmsgs : List Cmsg
deriving DecidableEq, Repr

/-- Sequential RingBuffer writes of the iovec contents: each write transfers
min(iov_len, capacity - size) bytes (partial writes succeed, never block).
Returns the buffer contents and the total byte count written. -/
def writeIovs (buf : List Nat) (cap : Nat) : List (List Nat) → List Nat × Nat
  | [] => (buf, 0)
  | iov :: rest =>
    let n := min iov.length (cap - buf.length)
    let out := writeIovs (buf ++ iov.take n) cap rest
    (out.1, n + out.2)

def sumLens : List Nat → Nat
  | [] => 0
  | n :: rest => n + sumLens rest

/-- The duplicated fds pushed as one cmsg_fd_queue entry by
HandleSendmsgLocked: for each control header of level SOL_SOCKET and type
SCM_RIGHTS, each wire fd duplicated through VirtualFileSystem::DupLocked
(represented by the dup oracle); headers of any other kind contribute
nothing. -/
def scmRightsFds (cmsgs : List Cmsg) (dup : Int → Int) : List Int :=
  (cmsgs.filter
    (fun c => c.cmsg_level = SOL_SOCKET ∧ c.cmsg_type = SCM_RIGHTS)).flatMap
    (fun c => c.fds.map dup)

/-- Outcome of the payload section of HandleSendmsgLocked: the receiver
state with the bytes in place, the byte count delivered and the byte count
attempted. -/
structure SendPhase where
  sock : LocalSocket
  bytesSent : Nat
  bytesAttempted : Nat
deriving DecidableEq, Repr

/-- The payload section of HandleSendmsgLocked (lines writing the iovecs):
STREAM writes each iovec into the ring (partial writes succeed);
DGRAM/SEQPACKET pushes one Datagram holding the concatenated payload and the
sender credentials. -/
def sendPayloadPhase (s : LocalSocket) (msg : SendMsg) (senderCred : Ucred) :
    SendPhase :=
  if msg.iov.length > 0 then
    if s.socket_type = .stream then
      let w := writeIovs s.buffer s.buffer_capacity msg.iov
      ⟨{ s with buffer := w.1 }, w.2, sumLens (msg.iov.map List.length)⟩
    else
      let content := msg.iov.flatten
      ⟨{ s with queue := s.queue ++ [⟨senderCred, content⟩] },
        content.length, content.length⟩
  else ⟨s, 0, 0⟩

/-- LocalSocket::HandleSendmsgLocked, run on the receiving endpoint.  After
the payload phase, if any byte was delivered and msg_controllen > 0, one
entry holding the duplicated SCM_RIGHTS fds is appended to cmsg_fd_queue.
Returns EAGAIN when payload was attempted but nothing was delivered,
otherwise the delivered byte count. -/
def LocalSocket.handleSendmsgLocked (s : LocalSocket) (msg : SendMsg)
    (senderCred : Ucred) (dup : Int → Int) : Except Errno Nat × LocalSocket :=
  let phase := sendPayloadPhase s msg senderCred
  let s2 :=
    if phase.bytesSent ≠ 0 ∧ msg.controllen > 0 then
      { phase.sock with
        cmsg_fd_queue := phase.sock.cmsg_fd_queue ++ [scmRightsFds msg.cmsgs dup] }
    else phase.sock
  if phase.bytesSent = 0 ∧ phase.bytesAttempted ≠ 0 then (.error .EAGAIN, s2)
  else (.ok phase.bytesSent, s2)

/-- LocalSocket::CanRead (READ_WRITE direction): a non-DGRAM endpoint whose
peer is gone is readable (to surface EOF); otherwise readability means the
ring (STREAM) or the datagram queue has data. -/
def LocalSocket.canRead (s : LocalSocket) : Bool :=
  if s.socket_type ≠ .dgram ∧ s.peer = none then true
  else if s.socket_type = .stream then s.buffer.length > 0
  else s.queue ≠ []

/-- LocalSocket::IsSelectReadReady, i.e.
GetPollEvents() & (POLLIN | POLLHUP | POLLERR) != 0, written out by state.
NEW contributes POLLHUP; CONNECTING contributes nothing; for CONNECTED the
READ_ONLY pipe case is POLLIN-on-data or POLLHUP-on-closed-peer, the
WRITE_ONLY pipe case only reaches POLLERR when the peer is gone, and the
READ_WRITE case is CanRead or the non-DGRAM closed-peer POLLHUP; LISTENING
contributes POLLIN exactly when the pending queue is non-empty. -/
def LocalSocket.isSelectReadReady (s : LocalSocket) : Bool :=
  match s.connect_state with
  | .new => true
  | .connecting => false
  | .connected =>
    match s.stream_dir with
    | .readOnly => s.buffer.length > 0 ∨ s.peer = none
    | .writeOnly => s.peer = none
    | .readWrite =>
      s.canRead ∨ (s.socket_type ≠ .dgram ∧ s.peer = none)
  | .listening => s.connection_queue ≠ []

/-- The receiver's msghdr view: the iovec capacities and msg_controllen. -/
structure RecvMsgIn where
  iovLens : List Nat
  controllen : Nat
deriving DecidableEq, Repr

/-- Output of one recvmsg call: the return value, the MSG_TRUNC / MSG_CTRUNC
bits of msg_flags, the output msg_controllen, the SCM_RIGHTS fd array and the
SCM_CREDENTIALS payload when present, the payload bytes placed into the
iovecs, the fds closed by the truncation loop (in close order) and the
endpoint state after the call. -/
structure RecvOut where
  result : Except Errno Nat
  msg_trunc : Bool
  msg_ctrunc : Bool
  msg_controllen : Nat
  rights : Option (List Int)
  scm_cred : Option Ucred
  delivered : List Nat
  closedFds : List Int
  sock : LocalSocket
deriving DecidableEq, Repr

/-- A recvmsg either blocks in the VFS wait loop or completes. -/
inductive RecvResult
  | blocks
  | done (out : RecvOut)
deriving DecidableEq, Repr

/-- Sequential RingBuffer reads into the iovecs: each read consumes
min(iov_len, size) bytes; returns the total byte count read. -/
def readIovs (buf : List Nat) : List Nat → Nat
  | [] => 0
  | l :: rest =>
    let n := min l buf.length
    n + readIovs (buf.drop n) rest

/-- The datagram copy loop of recvmsg: per iovec, len = min(iov_len,
remaining) bytes are copied and remaining decreases by len. Returns the
final remaining count. -/
def dgramRemaining (remaining : Nat) : List Nat → Nat
  | [] => remaining
  | l :: rest => dgramRemaining (remaining - min l remaining) rest

/-- The fd truncation loop of recvmsg, expressed on the reversed fd list
(head = the back of the C++ vector): while
CMSG_SPACE(CMSG_LEN(sizeof(int) * fds.size())) > msg_controllen and fds is
non-empty, the back fd is closed (CloseLocked) and popped and MSG_CTRUNC is
set.  Returns (remaining fds still reversed, closed fds in close order,
whether MSG_CTRUNC was set). -/
def dropFdsRev (controllen : Nat) : List Int → List Int × List Int × Bool
  | [] => ([], [], false)
  | fd :: rest =>
    if cmsgSpace (cmsgLen (sizeofInt * (rest.length + 1))) > controllen then
      let out := dropFdsRev controllen rest
      (out.1, fd :: out.2.1, true)
    else (fd :: rest, [], false)

/-- The fd truncation loop on the fd list in vector order. -/
def dropFds (controllen : Nat) (fds : List Int) :
    List Int × List Int × Bool :=
  let out := dropFdsRev controllen fds.reverse
  (out.1.reverse, out.2.1, out.2.2)

/-- Outcome of the payload section of recvmsg: the endpoint with the bytes
consumed, the byte count read, the MSG_TRUNC bit, the credentials attached to
the data (peer_cred for STREAM, the datagram's for DGRAM/SEQPACKET) and the
bytes placed into the iovecs. -/
structure PayloadPhase where
  sock : LocalSocket
  bytes : Nat
  trunc : Bool
  cred : Ucred
  delivered : List Nat
deriving DecidableEq, Repr

/-- The payload section of recvmsg.  STREAM drains the ring into successive
iovecs; DGRAM/SEQPACKET pops one datagram (when the queue is non-empty),
copies min(payload, capacity) bytes across the iovecs and sets MSG_TRUNC when
payload remains.  The ucred local of the source is uninitialized when the
datagram queue is empty; it is never read in that case (bytes = 0) and is
modelled as zeros. -/
def recvPayloadPhase (s : LocalSocket) (msg : RecvMsgIn) : PayloadPhase :=
  if s.socket_type = .stream then
    let n := readIovs s.buffer msg.iovLens
    ⟨{ s with buffer := s.buffer.drop n }, n, false, s.peer_cred,
      s.buffer.take n⟩
  else
    match s.queue with
    | [] => ⟨s, 0, false, ⟨0, 0, 0⟩, []⟩
    | d :: rest =>
      let remaining := dgramRemaining d.content.length msg.iovLens
      let n := d.content.length - remaining
      ⟨{ s with queue := rest }, n, remaining > 0, d.cred, d.content.take n⟩

/-- Outcome of the SCM_RIGHTS section of recvmsg: the endpoint with the head
cmsg_fd_queue entry popped (when there was one), the MSG_CTRUNC bit, the
control-buffer space consumed by the SCM_RIGHTS header, the delivered fd
array (none when the header was dropped entirely) and the fds closed by the
truncation loop, in close order. -/
structure CtrlPhase where
  sock : LocalSocket
  ctrunc : Bool
  spaceUsed : Nat
  rights : Option (List Int)
  closed : List Int
deriving DecidableEq, Repr

/-- The SCM_RIGHTS section of recvmsg (reached only when at least one byte
was read): pop one cmsg_fd_queue entry if any; close overflow fds from the
back (setting MSG_CTRUNC per closed fd); if even the shrunk header does not
fit in msg_controllen, deliver no SCM_RIGHTS header at all, otherwise deliver
the remaining fds and consume CMSG_SPACE(cmsg_len) bytes. -/
def recvCtrlPhase (s1 : LocalSocket) (controllen : Nat) : CtrlPhase :=
  match s1.cmsg_fd_queue with
  | [] => ⟨s1, false, 0, none, []⟩
  | fds :: restQ =>
    let dOut := dropFds controllen fds
    let kept := dOut.1
    if cmsgSpace (cmsgLen (sizeofInt * kept.length)) > controllen then
      ⟨{ s1 with cmsg_fd_queue := restQ }, dOut.2.2, 0, none, dOut.2.1⟩
    else
      ⟨{ s1 with cmsg_fd_queue := restQ }, dOut.2.2,
        cmsgSpace (cmsgLen (sizeofInt * kept.length)), some kept, dOut.2.1⟩

/-- LocalSocket::recvmsg.  Follows the source order: EBADF for WRITE_ONLY,
EINVAL for a non-DGRAM endpoint that is not CONNECTED, the blocking wait
while a peer exists and the endpoint is not read-ready, then the payload
phase (STREAM drains the ring; DGRAM/SEQPACKET pops one datagram, setting
MSG_TRUNC when payload remains), then the control phase (only when at least
one byte was read: pop one cmsg_fd_queue entry, close overflow fds from the
back setting MSG_CTRUNC, drop the SCM_RIGHTS header entirely when even the
shrunk header does not fit, then append SCM_CREDENTIALS when pass_cred is set
and it fits), and finally the byte count, or 0 at EOF (no peer, non-DGRAM),
or EAGAIN. -/
def LocalSocket.recvmsg (s : LocalSocket) (msg : RecvMsgIn) (dontwait : Bool) :
    RecvResult :=
  if s.stream_dir = .writeOnly then
    .done ⟨.error .EBADF, false, false, msg.controllen, none, none, [], [], s⟩
  else if s.socket_type ≠ .dgram ∧ s.connect_state ≠ .connected then
    .done ⟨.error .EINVAL, false, false, msg.controllen, none, none, [], [], s⟩
  else if s.is_block ∧ ¬ dontwait ∧ s.peer.isSome ∧ ¬ s.isSelectReadReady then
    .blocks
  else
    let phase := recvPayloadPhase s msg
    if phase.bytes > 0 then
      let ctrl := recvCtrlPhase phase.sock msg.controllen
      let credPart : Option Ucred × Nat :=
        if ctrl.sock.pass_cred ≠ 0 ∧
            cmsgSpace sizeofUcred + ctrl.spaceUsed ≤ msg.controllen then
          (some phase.cred, ctrl.spaceUsed + cmsgLen sizeofUcred)
        else (none, ctrl.spaceUsed)
      .done ⟨.ok phase.bytes, phase.trunc, ctrl.ctrunc, credPart.2,
        ctrl.rights, credPart.1, phase.delivered, ctrl.closed, ctrl.sock⟩
    else
      let res : Except Errno Nat :=
        if phase.sock.peer = none ∧ s.socket_type ≠ .dgram then .ok 0
        else .error .EAGAIN
      .done ⟨res, phase.trunc, false, 0, none, none, phase.delivered, [],
        phase.sock⟩

/-- Result of one sendmsg: the return value and the three endpoint states it
may touch (the caller, the caller's peer, the logd target). -/
structure SendOut where
  result : Except Errno Nat
  self : LocalSocket
  peerSock : LocalSocket
  target : Option LocalSocket
deriving Repr

/-- LocalSocket::sendmsg.  peerSock is the endpoint the peer_ pointer refers
to (unused when s.peer is none) and target is the result of the logd
namespace lookup of logd_target_name_ (GetByName).  EBADF for READ_ONLY,
EINVAL for non-DGRAM not CONNECTED, delivery into the peer when linked,
otherwise the DGRAM logd-target route or ECONNREFUSED, and ECONNRESET for a
peerless non-DGRAM endpoint. -/
def LocalSocket.sendmsg (s : LocalSocket) (peerSock : LocalSocket)
    (target : Option LocalSocket) (msg : SendMsg) (dup : Int → Int) :
    SendOut :=
  if s.stream_dir = .readOnly then ⟨.error .EBADF, s, peerSock, target⟩
  else if s.socket_type ≠ .dgram ∧ s.connect_state ≠ .connected then
    ⟨.error .EINVAL, s, peerSock, target⟩
  else if s.peer.isSome then
    let out := peerSock.handleSendmsgLocked msg s.my_cred dup
    ⟨out.1, s, out.2, target⟩
  else if s.socket_type = .dgram then
    if s.logd_target_name ≠ [] then
      match target with
      | some t =>
        let out := t.handleSendmsgLocked msg s.my_cred dup
        ⟨out.1, s, peerSock, some out.2⟩
      | none => ⟨.error .ECONNREFUSED, s, peerSock, target⟩
    else ⟨.error .ECONNREFUSED, s, peerSock, target⟩
  else ⟨.error .ECONNRESET, s, peerSock, target⟩

/-- A recvfrom either blocks inside the delegated recvmsg or completes with a
return value and the endpoint state. -/
inductive RecvfromResult
  | blocks
  | done (result : Except Errno Nat) (sock : LocalSocket)
deriving DecidableEq, Repr

/-- LocalSocket::recvfrom: EINVAL when a source-address pointer or an
address-length pointer is supplied, 0 for a zero-length read, otherwise
delegate to recvmsg with a single iovec (and flags 0, so no MSG_DONTWAIT). -/
def LocalSocket.recvfrom (s : LocalSocket) (len : Nat)
    (addrPresent addrlenPresent : Bool) : RecvfromResult :=
  if addrPresent ∨ addrlenPresent then .done (.error .EINVAL) s
  else if len = 0 then .done (.ok 0) s
  else
    match s.recvmsg ⟨[len], 0⟩ false with
    | .blocks => .blocks
    | .done out => .done out.result out.sock

/-- LocalSocket::sendto: EINVAL when a destination address or a non-zero
address length is supplied, 0 for a zero-length send, otherwise delegate to
sendmsg with a single iovec and no control data. -/
def LocalSocket.sendto (s : LocalSocket) (peerSock : LocalSocket)
    (target : Option LocalSocket) (buf : List Nat)
    (destPresent : Bool) (addrlen : Nat) (dup : Int → Int) : SendOut :=
  if destPresent ∨ addrlen ≠ 0 then ⟨.error .EINVAL, s, peerSock, target⟩
  else if buf.length = 0 then ⟨.ok 0, s, peerSock, target⟩
  else s.sendmsg peerSock target ⟨[buf], 0, []⟩ dup

/-- Result of LocalSocket::accept: the returned fd, the listener state after
the call, the freshly minted server endpoint (when pairing happened) and the
paired client id with its updated state. -/
structure AcceptOut where
  result : Except Errno Nat
  listener : LocalSocket
  server : Option LocalSocket
  client : Option (Nat × LocalSocket)
deriving Repr

/-- LocalSocket::accept.  clientOf resolves a queued client id to its
endpoint, isClosed is SocketStream::IsClosed on a queued client (its FD
references are outside src/), selfClosed is IsClosed() on the listener after
the wait, fdAlloc is the outcome of VirtualFileSystem::AddFileStreamLocked
for the new server endpoint (none = out of fds) and serverId / pid / uid name
the fresh endpoint and the accepting process credentials.  The optional
sockaddr out-parameter handling (VerifyOutputSocketAddress, outside src/)
touches no endpoint state and is omitted.  Order follows the source:
EOPNOTSUPP for DGRAM, EINVAL when not LISTENING, ENOSYS when non-blocking,
the wait loop that discards closed entries from the queue front, EBADF when
the listener was closed, EAGAIN on an empty queue (timeout), the server
endpoint construction, EMFILE when no fd is available, and finally the pop
plus the mutual set_peer. -/
def LocalSocket.accept (s : LocalSocket) (clientOf : Nat → LocalSocket)
    (isClosed : Nat → Bool) (selfClosed : Bool) (fdAlloc : Option Nat)
    (serverId : Nat) (pid uid : Int) : AcceptOut :=
  if s.socket_type = .dgram then ⟨.error .EOPNOTSUPP, s, none, none⟩
  else if s.connect_state ≠ .listening then ⟨.error .EINVAL, s, none, none⟩
  else if ¬ s.is_block then ⟨.error .ENOSYS, s, none, none⟩
  else
    let queue1 := s.connection_queue.dropWhile isClosed
    let s1 := { s with connection_queue := queue1 }
    if selfClosed then ⟨.error .EBADF, s1, none, none⟩
    else
      match queue1 with
      | [] => ⟨.error .EAGAIN, s1, none, none⟩
      | clientId :: rest =>
        let server := LocalSocket.init s.is_block s.socket_type .readWrite pid uid
        match fdAlloc with
        | none => ⟨.error .EMFILE, s1, none, none⟩
        | some fd =>
          let client := clientOf clientId
          let server1 := server.set_peer clientId client
          let client1 := client.set_peer serverId server
          ⟨.ok fd, { s1 with connection_queue := rest }, some server1,
            some (clientId, client1)⟩

theorem readIovs_nil (ls : List Nat) : readIovs [] ls = 0 := by
  induction ls with
  | nil => rfl
  | cons l rest ih => simp [readIovs, ih]

theorem dgramRemaining_eq (r : Nat) (ls : List Nat) :
    dgramRemaining r ls = r - sumLens ls := by
  induction ls generalizing r with
  | nil => simp [dgramRemaining, sumLens]
  | cons l rest ih => rw [dgramRemaining, ih, sumLens]; omega

theorem dropFdsRev_partition (cl : Nat) (r : List Int) :
    (dropFdsRev cl r).2.1 ++ (dropFdsRev cl r).1 = r := by
  induction r with
  | nil => rfl
  | cons fd rest ih =>
    rw [dropFdsRev]
    split
    · simpa using ih
    · simp

theorem dropFdsRev_ctrunc_iff (cl : Nat) (r : List Int) :
    (dropFdsRev cl r).2.2 = true ↔ (dropFdsRev cl r).2.1 ≠ [] := by
  cases r with
  | nil => simp [dropFdsRev]
  | cons fd rest =>
    rw [dropFdsRev]
    split <;> simp

theorem dropFds_partition (cl : Nat) (fds : List Int) :
    (dropFds cl fds).1 ++ (dropFds cl fds).2.1.reverse = fds := by
  have h := dropFdsRev_partition cl fds.reverse
  rw [dropFds]
  have : ((dropFdsRev cl fds.reverse).2.1 ++ (dropFdsRev cl fds.reverse).1).reverse
      = fds.reverse.reverse := by rw [h]
  simp only [List.reverse_append, List.reverse_reverse] at this
  exact this

theorem dropFds_ctrunc_iff (cl : Nat) (fds : List Int) :
    (dropFds cl fds).2.2 = true ↔ (dropFds cl fds).2.1 ≠ [] := by
  rw [dropFds]
  simpa using dropFdsRev_ctrunc_iff cl fds.reverse

theorem sendPayloadPhase_cmsg (s : LocalSocket) (msg : SendMsg)
    (cred : Ucred) :
    (sendPayloadPhase s msg cred).sock.cmsg_fd_queue = s.cmsg_fd_queue := by
  rw [sendPayloadPhase]
  split
  · split <;> rfl
  · rfl

theorem recvPayloadPhase_cmsg (s : LocalSocket) (msg : RecvMsgIn) :
    (recvPayloadPhase s msg).sock.cmsg_fd_queue = s.cmsg_fd_queue := by
  rw [recvPayloadPhase]
  split
  · rfl
  · split <;> rfl

theorem recvCtrlPhase_queue (s1 : LocalSocket) (cl : Nat) :
    (recvCtrlPhase s1 cl).sock.queue = s1.queue := by
  rw [recvCtrlPhase.eq_def]
  split
  · rfl
  · dsimp only
    split <;> rfl

/-- The DGRAM/SEQPACKET branch of the recvmsg payload phase pops the head
datagram and copies min(payload, total iovec capacity) bytes, setting
MSG_TRUNC exactly when payload remains. -/
theorem recvPayloadPhase_dgram (s : LocalSocket) (msg : RecvMsgIn)
    (d : Datagram) (rest : List Datagram)
    (h1 : s.socket_type ≠ .stream) (h2 : s.queue = d :: rest) :
    recvPayloadPhase s msg = ⟨{ s with queue := rest },
      min d.content.length (sumLens msg.iovLens),
      decide (sumLens msg.iovLens < d.content.length), d.cred,
      d.content.take (min d.content.length (sumLens msg.iovLens))⟩ := by
  rw [recvPayloadPhase, if_neg h1, h2]
  have hn : d.content.length - dgramRemaining d.content.length msg.iovLens =
      min d.content.length (sumLens msg.iovLens) := by
    rw [dgramRemaining_eq]; omega
  have ht : decide (dgramRemaining d.content.length msg.iovLens > 0) =
      decide (sumLens msg.iovLens < d.content.length) := by
    rw [dgramRemaining_eq]
    by_cases h : sumLens msg.iovLens < d.content.length
    · rw [decide_eq_true h, decide_eq_true (by omega)]
    · rw [decide_eq_false h, decide_eq_false (by omega)]
  dsimp only
  rw [hn, ht]

/-- The SCM_RIGHTS section of recvmsg pops the head cmsg_fd_queue entry,
sets MSG_CTRUNC exactly when it closed at least one fd, closes the dropped
fds back-to-front (so the kept fds are a prefix of the entry and the closed
list, reversed, is the remaining suffix), and delivers either the kept fds
or, when even the shrunk header does not fit, no SCM_RIGHTS at all. -/
theorem recvCtrlPhase_props (s1 : LocalSocket) (cl : Nat) (fds : List Int)
    (restQ : List (List Int)) (h : s1.cmsg_fd_queue = fds :: restQ) :
    (recvCtrlPhase s1 cl).sock.cmsg_fd_queue = restQ ∧
    ((recvCtrlPhase s1 cl).ctrunc = true ↔ (recvCtrlPhase s1 cl).closed ≠ []) ∧
    (dropFds cl fds).1 ++ (recvCtrlPhase s1 cl).closed.reverse = fds ∧
    ((recvCtrlPhase s1 cl).rights = some (dropFds cl fds).1 ∨
      (recvCtrlPhase s1 cl).rights = none) := by
  rw [recvCtrlPhase.eq_def, h]
  simp only []
  split
  · exact ⟨rfl, dropFds_ctrunc_iff cl fds, dropFds_partition cl fds, Or.inr rfl⟩
  · exact ⟨rfl, dropFds_ctrunc_iff cl fds, dropFds_partition cl fds, Or.inl rfl⟩

/-- A connected STREAM endpoint with a live peer link, as minted by pairing. -/
def pairedStream : LocalSocket :=
  { LocalSocket.init true .stream .readWrite 10 20 with
    connect_state := .connected, peer := some 1 }

/-- A connected STREAM endpoint whose peer has been closed (half-closed). -/
def halfClosedStream : LocalSocket :=
  { LocalSocket.init true .stream .readWrite 10 20 with
    connect_state := .connected }

/-- Claim C8: getsockopt(SOL_SOCKET, SO_PEERCRED) returns (pid=0, uid=-1,
gid=-1) on every endpoint that has never been paired (the constructor
default), and after a set_peer pairing (the step connect/accept perform) it
returns the peer's (pid, uid, gid), which were snapshotted into the peer's
my_cred when that endpoint was constructed (with gid = uid). -/
theorem c8_peercred :
    (∀ (b : Bool) (t : SocketType) (d : StreamDir) (pid uid : Int),
      (LocalSocket.init b t d pid uid).getsockoptPeercred = ⟨0, -1, -1⟩) ∧
    (∀ (b : Bool) (t : SocketType) (d : StreamDir) (pid uid : Int),
      (LocalSocket.init b t d pid uid).my_cred = ⟨pid, uid, uid⟩) ∧
    (∀ (s : LocalSocket) (id : Nat) (p : LocalSocket),
      (s.set_peer id p).getsockoptPeercred = p.my_cred) :=
  ⟨fun _ _ _ _ _ => rfl, fun _ _ _ _ _ => rfl, fun _ _ _ => rfl⟩

/-- Claim C10: recvfrom with a non-null source-address pointer or a non-null
address-length pointer fails with EINVAL, and sendto with a non-null
destination address or a non-zero address length fails with EINVAL; in both
cases every endpoint state (self, peer, logd target) is returned untouched. -/
theorem c10_recvfrom_sendto_guard :
    ∀ (s peerSock : LocalSocket) (target : Option LocalSocket) (len : Nat)
      (aP alP dP : Bool) (alen : Nat) (buf : List Nat) (dup : Int → Int),
      (aP = true ∨ alP = true →
        s.recvfrom len aP alP = .done (.error .EINVAL) s) ∧
      (dP = true ∨ alen ≠ 0 →
        s.sendto peerSock target buf dP alen dup =
          ⟨.error .EINVAL, s, peerSock, target⟩) := by
  intro s peerSock target len aP alP dP alen buf dup
  constructor
  · intro h
    rw [LocalSocket.recvfrom, if_pos h]
  · intro h
    rw [LocalSocket.sendto, if_pos h]

theorem c10_witness :
    ((true : Bool) = true ∨ (false : Bool) = true) ∧
    (pairedStream.recvfrom 4 true false = .done (.error .EINVAL) pairedStream) ∧
    ((false : Bool) = true ∨ (3 : Nat) ≠ 0) ∧
    (pairedStream.sendto pairedStream none [7] false 3 (fun f => f) =
      ⟨.error .EINVAL, pairedStream, pairedStream, none⟩) :=
  ⟨Or.inl rfl,
   (c10_recvfrom_sendto_guard pairedStream pairedStream none 4 true false
      false 3 [7] (fun f => f)).1 (Or.inl rfl),
   Or.inr (by decide),
   (c10_recvfrom_sendto_guard pairedStream pairedStream none 4 true false
      false 3 [7] (fun f => f)).2 (Or.inr (by decide))⟩

/-- Claim C7: on a STREAM/SEQPACKET endpoint in CONNECTED state whose peer is
gone (half-closed) and whose receive storage is empty, recvmsg returns 0
(EOF) and sendmsg fails with ECONNRESET. -/
theorem c7_halfclosed :
    ∀ (s peerSock : LocalSocket) (target : Option LocalSocket)
      (msgIn : RecvMsgIn) (dontwait : Bool) (msg : SendMsg) (dup : Int → Int),
      s.socket_type = .stream ∨ s.socket_type = .seqpacket →
      s.connect_state = .connected →
      s.stream_dir = .readWrite →
      s.peer = none →
      s.buffer = [] →
      s.queue = [] →
      (∃ out, s.recvmsg msgIn dontwait = .done out ∧ out.result = .ok 0) ∧
      (s.sendmsg peerSock target msg dup).result = .error .ECONNRESET := by
  intro s peerSock target msgIn dontwait msg dup hty hst hdir hpeer hbuf hq
  have hnd : s.socket_type ≠ .dgram := by rcases hty with h | h <;> simp [h]
  constructor
  · rw [LocalSocket.recvmsg]
    rw [if_neg (by simp [hdir])]
    rw [if_neg (by simp [hst])]
    rw [if_neg (by simp [hpeer])]
    have hphase : (recvPayloadPhase s msgIn).bytes = 0 ∧
        (recvPayloadPhase s msgIn).sock.peer = none := by
      rw [recvPayloadPhase]
      split
      · simp [hbuf, readIovs_nil, hpeer]
      · rw [hq]; simp [hpeer]
    simp only [hphase.1]
    refine ⟨_, rfl, ?_⟩
    simp [hphase.2, hnd]
  · rw [LocalSocket.sendmsg.eq_def]
    rw [if_neg (by simp [hdir])]
    rw [if_neg (by simp [hst])]
    rw [if_neg (by simp [hpeer])]
    rw [if_neg (by simp [hnd])]

theorem c7_witness :
    (halfClosedStream.socket_type = .stream ∨
      halfClosedStream.socket_type = .seqpacket) ∧
    halfClosedStream.connect_state = .connected ∧
    halfClosedStream.stream_dir = .readWrite ∧
    halfClosedStream.peer = none ∧
    halfClosedStream.buffer = [] ∧
    halfClosedStream.queue = [] ∧
    ((∃ out, halfClosedStream.recvmsg ⟨[16], 0⟩ false = .done out ∧
        out.result = .ok 0) ∧
      (halfClosedStream.sendmsg pairedStream none ⟨[[5]], 0, []⟩
        (fun f => f)).result = .error .ECONNRESET) :=
  ⟨Or.inl rfl, rfl, rfl, rfl, rfl, rfl,
   c7_halfclosed halfClosedStream pairedStream none ⟨[16], 0⟩ false
     ⟨[[5]], 0, []⟩ (fun f => f) (Or.inl rfl) rfl rfl rfl rfl rfl⟩

/-- Claim C9: accept is atomic on FD exhaustion: when the VFS FD table cannot
supply a descriptor for the freshly created server endpoint, accept returns
EMFILE and the listener's pending-connection queue is unchanged (its head
client, which is not closed, remains queued) and no peer link is established
on either side (no endpoint is paired or modified). -/
theorem c9_accept_emfile_atomic :
    ∀ (s : LocalSocket) (clientOf : Nat → LocalSocket) (isClosed : Nat → Bool)
      (serverId : Nat) (pid uid : Int) (c : Nat) (rest : List Nat),
      s.socket_type ≠ .dgram →
      s.connect_state = .listening →
      s.is_block = true →
      s.connection_queue = c :: rest →
      isClosed c = false →
      s.accept clientOf isClosed false none serverId pid uid =
        ⟨.error .EMFILE, s, none, none⟩ := by
  intro s clientOf isClosed serverId pid uid c rest hnd hst hblk hq hc
  rw [LocalSocket.accept]
  rw [if_neg hnd]
  rw [if_neg (by simp [hst])]
  rw [if_neg (by simp [hblk])]
  have hdrop : s.connection_queue.dropWhile isClosed = c :: rest := by
    rw [hq, List.dropWhile_cons, hc]
    simp
  have hs1 : ({ s with connection_queue := c :: rest } : LocalSocket) = s := by
    rw [← hq]
  simp only [hdrop, hs1]
  simp

/-- A LISTENING STREAM endpoint with one live pending connection. -/
def sampleListener : LocalSocket :=
  { LocalSocket.init true .stream .readWrite 10 20 with
    connect_state := .listening, abstract_name := [115],
    connection_backlog := 2, connection_queue := [7] }

theorem c9_witness :
    sampleListener.socket_type ≠ .dgram ∧
    sampleListener.connect_state = .listening ∧
    sampleListener.is_block = true ∧
    sampleListener.connection_queue = 7 :: [] ∧
    (fun _ : Nat => false) 7 = false ∧
    sampleListener.accept (fun _ => pairedStream) (fun _ => false) false none
      9 1 2 = ⟨.error .EMFILE, sampleListener, none, none⟩ :=
  ⟨by decide, rfl, rfl, rfl, rfl,
   c9_accept_emfile_atomic sampleListener (fun _ => pairedStream)
     (fun _ => false) 9 1 2 7 [] (by decide) rfl rfl rfl rfl⟩

/-- A sendmsg carrying one payload byte plus a single SCM_CREDENTIALS (that
is, not SCM_RIGHTS) control header. -/
def credsOnlyMsg : SendMsg := ⟨[[42]], 32, [⟨SOL_SOCKET, SCM_CREDENTIALS, []⟩]⟩

/-- Claim C1 counterexample: a sendmsg that delivers one payload byte and
whose control data consists solely of an SCM_CREDENTIALS header (no
SCM_RIGHTS anywhere) still pushes one entry (an empty fd list) onto the
receiver's control-message FIFO, where the claim requires that control
messages of any other kind enqueue nothing. -/
theorem c1_counterexample :
    (pairedStream.handleSendmsgLocked credsOnlyMsg ⟨1, 2, 2⟩ (fun f => f)).1 =
      .ok 1 ∧
    credsOnlyMsg.cmsgs = [⟨SOL_SOCKET, SCM_CREDENTIALS, []⟩] ∧
    SCM_CREDENTIALS ≠ SCM_RIGHTS ∧
    pairedStream.cmsg_fd_queue = [] ∧
    (pairedStream.handleSendmsgLocked credsOnlyMsg ⟨1, 2, 2⟩
      (fun f => f)).2.cmsg_fd_queue = [[]] :=
  ⟨rfl, rfl, by decide, rfl, rfl⟩

/-- Claim C1 amended: for every sendmsg on a connected endpoint that delivers
at least one payload byte, exactly one entry is pushed onto the receiver's
control-message FIFO if and only if the message carried any control bytes
(msg_controllen > 0); the entry consists of exactly the duplicated fds of the
SOL_SOCKET/SCM_RIGHTS headers, so control messages of any other kind
contribute no fds to it (for them the pushed entry is empty). -/
theorem c1_amended :
    ∀ (r : LocalSocket) (msg : SendMsg) (cred : Ucred) (dup : Int → Int)
      (n : Nat),
      (r.handleSendmsgLocked msg cred dup).1 = .ok n →
      1 ≤ n →
      (r.handleSendmsgLocked msg cred dup).2.cmsg_fd_queue =
        (if 0 < msg.controllen then
          r.cmsg_fd_queue ++ [scmRightsFds msg.cmsgs dup]
        else r.cmsg_fd_queue) := by
  intro r msg cred dup n hok hn
  rw [LocalSocket.handleSendmsgLocked] at hok ⊢
  by_cases hz : (sendPayloadPhase r msg cred).bytesSent = 0 ∧
      (sendPayloadPhase r msg cred).bytesAttempted ≠ 0
  · rw [if_pos hz] at hok
    exact absurd hok (by simp)
  · rw [if_neg hz] at hok
    simp only [Prod.fst] at hok
    have hb : (sendPayloadPhase r msg cred).bytesSent = n := by
      simpa using hok
    have hbne : (sendPayloadPhase r msg cred).bytesSent ≠ 0 := by omega
    by_cases hc : 0 < msg.controllen
    · rw [if_neg hz]
      rw [if_pos (show (sendPayloadPhase r msg cred).bytesSent ≠ 0 ∧
          msg.controllen > 0 from ⟨hbne, hc⟩)]
      rw [if_pos hc]
      simp [sendPayloadPhase_cmsg]
    · rw [if_neg hz]
      rw [if_neg (show ¬ ((sendPayloadPhase r msg cred).bytesSent ≠ 0 ∧
          msg.controllen > 0) by tauto)]
      rw [if_neg hc]
      exact sendPayloadPhase_cmsg r msg cred

/-- A sendmsg carrying one payload byte plus one SCM_RIGHTS header with two
wire fds. -/
def rightsMsg : SendMsg := ⟨[[42]], 40, [⟨SOL_SOCKET, SCM_RIGHTS, [5, 6]⟩]⟩

theorem c1_amended_witness :
    (pairedStream.handleSendmsgLocked rightsMsg ⟨1, 2, 2⟩
      (fun f => f + 100)).1 = .ok 1 ∧
    (1 : Nat) ≤ 1 ∧
    (pairedStream.handleSendmsgLocked rightsMsg ⟨1, 2, 2⟩
      (fun f => f + 100)).2.cmsg_fd_queue =
      (if 0 < rightsMsg.controllen then
        pairedStream.cmsg_fd_queue ++
          [scmRightsFds rightsMsg.cmsgs (fun f => f + 100)]
      else pairedStream.cmsg_fd_queue) :=
  ⟨rfl, le_refl 1,
   c1_amended pairedStream rightsMsg ⟨1, 2, 2⟩ (fun f => f + 100) 1 rfl
     (le_refl 1)⟩

/-- A paired STREAM endpoint with one buffered byte and one queued
control-message entry whose fd list is empty (as produced, for example, by a
send that carried only non-SCM_RIGHTS control data, see claim C1). -/
def emptyEntryStream : LocalSocket :=
  { pairedStream with buffer := [7], cmsg_fd_queue := [[]] }

/-- Claim C2 counterexample: a recvmsg that delivers one byte and pops a
control-message entry whose fd list is empty, with msg_controllen = 0, drops
the entire SCM_RIGHTS header (rights = none, since even
CMSG_SPACE(CMSG_LEN(0)) > 0) yet leaves MSG_CTRUNC clear, where the claim
requires MSG_CTRUNC to be set whenever the entire SCM_RIGHTS header did not
fit in the caller's msg_controllen. -/
theorem c2_counterexample :
    emptyEntryStream.cmsg_fd_queue = [[]] ∧
    cmsgSpace (cmsgLen (sizeofInt * 0)) > 0 ∧
    emptyEntryStream.recvmsg ⟨[10], 0⟩ false =
      .done ⟨.ok 1, false, false, 0, none, none, [7], [],
        { emptyEntryStream with buffer := [], cmsg_fd_queue := [] }⟩ :=
  ⟨rfl, by decide, rfl⟩

/-- Claim C2 amended: for every recvmsg that delivers at least one byte and
pops a control-message entry, MSG_CTRUNC is set in msg_flags if and only if
at least one SCM_RIGHTS fd was dropped (the dropped fds being closed in LIFO
order: the kept fds are a prefix of the entry and the closed fds, reversed,
are the remaining suffix); an entry whose fd list shrinks to nothing without
any close (an empty entry whose bare header does not fit) is dropped without
setting MSG_CTRUNC.  The payload bytes are delivered regardless. -/
theorem c2_amended :
    ∀ (s : LocalSocket) (msg : RecvMsgIn) (dontwait : Bool) (fds : List Int)
      (restQ : List (List Int)) (out : RecvOut) (n : Nat),
      s.cmsg_fd_queue = fds :: restQ →
      s.recvmsg msg dontwait = .done out →
      out.result = .ok n →
      1 ≤ n →
      out.sock.cmsg_fd_queue = restQ ∧
      (out.msg_ctrunc = true ↔ out.closedFds ≠ []) ∧
      (dropFds msg.controllen fds).1 ++ out.closedFds.reverse = fds ∧
      (out.rights = some (dropFds msg.controllen fds).1 ∨
        out.rights = none) := by
  intro s msg dontwait fds restQ out n hq hdone hok hn
  rw [LocalSocket.recvmsg] at hdone
  by_cases h1 : s.stream_dir = .writeOnly
  · rw [if_pos h1] at hdone
    cases hdone
    simp at hok
  rw [if_neg h1] at hdone
  by_cases h2 : s.socket_type ≠ .dgram ∧ s.connect_state ≠ .connected
  · rw [if_pos h2] at hdone
    cases hdone
    simp at hok
  rw [if_neg h2] at hdone
  by_cases h3 : s.is_block ∧ ¬ dontwait ∧ s.peer.isSome ∧
      ¬ s.isSelectReadReady
  · rw [if_pos h3] at hdone
    cases hdone
  rw [if_neg h3] at hdone
  by_cases h4 : (recvPayloadPhase s msg).bytes > 0
  · rw [if_pos h4] at hdone
    cases hdone
    have hpq : (recvPayloadPhase s msg).sock.cmsg_fd_queue = fds :: restQ := by
      rw [recvPayloadPhase_cmsg, hq]
    have hprops := recvCtrlPhase_props (recvPayloadPhase s msg).sock
      msg.controllen fds restQ hpq
    exact hprops
  · rw [if_neg h4] at hdone
    cases hdone
    simp only [] at hok
    by_cases h5 : (recvPayloadPhase s msg).sock.peer = none ∧
        s.socket_type ≠ .dgram
    · rw [if_pos h5] at hok
      have : n = 0 := by simpa using hok.symm
      omega
    · rw [if_neg h5] at hok
      simp at hok

/-- A paired STREAM endpoint with one buffered byte and one queued
control-message entry carrying two fds. -/
def truncEntryStream : LocalSocket :=
  { pairedStream with buffer := [7], cmsg_fd_queue := [[3, 4]] }

/-- The outcome of receiving on truncEntryStream with msg_controllen = 36:
one byte delivered, both fds dropped and closed back-to-front (4 then 3),
MSG_CTRUNC set, and an empty SCM_RIGHTS header (which fits) delivered. -/
def truncRecvOut : RecvOut :=
  ⟨.ok 1, false, true, 32, some [], none, [7], [4, 3],
    { truncEntryStream with buffer := [], cmsg_fd_queue := [] }⟩

theorem c2_amended_witness :
    truncEntryStream.cmsg_fd_queue = [3, 4] :: [] ∧
    truncEntryStream.recvmsg ⟨[10], 36⟩ false = .done truncRecvOut ∧
    truncRecvOut.result = .ok 1 ∧
    (1 : Nat) ≤ 1 ∧
    (truncRecvOut.sock.cmsg_fd_queue = [] ∧
      (truncRecvOut.msg_ctrunc = true ↔ truncRecvOut.closedFds ≠ []) ∧
      (dropFds 36 [3, 4]).1 ++ truncRecvOut.closedFds.reverse = [3, 4] ∧
      (truncRecvOut.rights = some (dropFds 36 [3, 4]).1 ∨
        truncRecvOut.rights = none)) :=
  ⟨rfl, rfl, rfl, le_refl 1,
   c2_amended truncEntryStream ⟨[10], 36⟩ false [3, 4] [] truncRecvOut 1 rfl
     rfl rfl (le_refl 1)⟩

/-- A connected DGRAM endpoint (no peer link) with one queued 3-byte
datagram. -/
def zeroCapDgram : LocalSocket :=
  { LocalSocket.init true .dgram .readWrite 10 20 with
    connect_state := .connected, queue := [⟨⟨1, 2, 2⟩, [9, 9, 9]⟩] }

/-- Claim C3 counterexample: a recvmsg on a DGRAM endpoint whose queue holds
a 3-byte datagram, called with no iovecs (total capacity 0), pops the
datagram and sets MSG_TRUNC but returns EAGAIN instead of the claimed
min(payload size, total iovec capacity) = 0. -/
theorem c3_counterexample :
    zeroCapDgram.queue = [⟨⟨1, 2, 2⟩, [9, 9, 9]⟩] ∧
    min ([9, 9, 9] : List Nat).length (sumLens []) = 0 ∧
    zeroCapDgram.recvmsg ⟨[], 0⟩ false =
      .done ⟨.error .EAGAIN, true, false, 0, none, none, [], [],
        { zeroCapDgram with queue := [] }⟩ :=
  ⟨rfl, rfl, rfl⟩

/-- Claim C3 amended: for every recvmsg on a DGRAM/SEQPACKET endpoint whose
datagram queue is non-empty (and that reaches the payload phase), exactly one
datagram is popped, its payload is copied across the iovecs up to their total
capacity, MSG_TRUNC is set in msg_flags if and only if the payload size
exceeded the total iovec capacity, and the returned byte count is
min(payload size, total iovec capacity) whenever that min is positive; when
it is zero the call returns EAGAIN (or 0 on a peerless non-DGRAM endpoint)
instead. -/
theorem c3_amended :
    ∀ (s : LocalSocket) (msg : RecvMsgIn) (dontwait : Bool) (d : Datagram)
      (rest : List Datagram) (out : RecvOut),
      s.socket_type ≠ .stream →
      s.stream_dir ≠ .writeOnly →
      (s.socket_type = .dgram ∨ s.connect_state = .connected) →
      s.queue = d :: rest →
      s.recvmsg msg dontwait = .done out →
      out.sock.queue = rest ∧
      out.delivered =
        d.content.take (min d.content.length (sumLens msg.iovLens)) ∧
      (out.msg_trunc = true ↔ sumLens msg.iovLens < d.content.length) ∧
      (0 < min d.content.length (sumLens msg.iovLens) →
        out.result = .ok (min d.content.length (sumLens msg.iovLens))) := by
  intro s msg dontwait d rest out hty hdir hguard hq hdone
  rw [LocalSocket.recvmsg] at hdone
  rw [if_neg hdir] at hdone
  rw [if_neg (by tauto)] at hdone
  by_cases h3 : s.is_block ∧ ¬ dontwait ∧ s.peer.isSome ∧
      ¬ s.isSelectReadReady
  · rw [if_pos h3] at hdone
    cases hdone
  rw [if_neg h3] at hdone
  rw [recvPayloadPhase_dgram s msg d rest hty hq] at hdone
  by_cases h4 : 0 < min d.content.length (sumLens msg.iovLens)
  · rw [if_pos h4] at hdone
    cases hdone
    refine ⟨?_, rfl, ?_, fun _ => rfl⟩
    · exact recvCtrlPhase_queue _ msg.controllen
    · simp
  · rw [if_neg h4] at hdone
    cases hdone
    refine ⟨rfl, rfl, by simp, fun h => absurd h h4⟩

/-- A connected DGRAM endpoint with one queued 5-byte datagram. -/
def fiveByteDgram : LocalSocket :=
  { LocalSocket.init true .dgram .readWrite 10 20 with
    connect_state := .connected, queue := [⟨⟨1, 2, 2⟩, [1, 2, 3, 4, 5]⟩] }

/-- The outcome of receiving on fiveByteDgram with one 3-byte iovec: 3 bytes
delivered, MSG_TRUNC set, the datagram consumed. -/
def truncDgramOut : RecvOut :=
  ⟨.ok 3, true, false, 0, none, none, [1, 2, 3], [],
    { fiveByteDgram with queue := [] }⟩

theorem c3_amended_witness :
    fiveByteDgram.socket_type ≠ .stream ∧
    fiveByteDgram.stream_dir ≠ .writeOnly ∧
    (fiveByteDgram.socket_type = .dgram ∨
      fiveByteDgram.connect_state = .connected) ∧
    fiveByteDgram.queue = ⟨⟨1, 2, 2⟩, [1, 2, 3, 4, 5]⟩ :: [] ∧
    fiveByteDgram.recvmsg ⟨[3], 64⟩ false = .done truncDgramOut ∧
    (truncDgramOut.sock.queue = [] ∧
      truncDgramOut.delivered =
        ([1, 2, 3, 4, 5] : List Nat).take
          (min ([1, 2, 3, 4, 5] : List Nat).length (sumLens [3])) ∧
      (truncDgramOut.msg_trunc = true ↔
        sumLens [3] < ([1, 2, 3, 4, 5] : List Nat).length) ∧
      (0 < min ([1, 2, 3, 4, 5] : List Nat).length (sumLens [3]) →
        truncDgramOut.result =
          .ok (min ([1, 2, 3, 4, 5] : List Nat).length (sumLens [3])))) :=
  ⟨by decide, by decide, Or.inl rfl, rfl, rfl,
   c3_amended fiveByteDgram ⟨[3], 64⟩ false ⟨⟨1, 2, 2⟩, [1, 2, 3, 4, 5]⟩ []
     truncDgramOut (by decide) (by decide) (Or.inl rfl) rfl rfl⟩

/-- A LISTENING STREAM endpoint whose backlog (1) is smaller than its current
pending-connection queue (size 2), as arises when listen is called a second
time with a smaller backlog after clients queued. -/
def overfullListener : LocalSocket :=
  { LocalSocket.init true .stream .readWrite 10 20 with
    connect_state := .listening, abstract_name := [115],
    connection_backlog := 1, connection_queue := [4, 5] }

/-- A fresh STREAM endpoint about to connect. -/
def connectClient : LocalSocket := LocalSocket.init true .stream .readWrite 30 40

/-- Claim C4 counterexample: a connect reaching a LISTENING STREAM target
whose queue (size 2) has no space remaining relative to the recorded backlog
(1) nevertheless succeeds and enqueues the client, because the source
refuses only when the queue size equals the backlog exactly; the claim
requires ECONNREFUSED with the queue unchanged whenever the size is not
strictly below the backlog. -/
theorem c4_counterexample :
    overfullListener.connect_state = .listening ∧
    overfullListener.socket_type = connectClient.socket_type ∧
    ¬ ((overfullListener.connection_queue.length : Int) <
        overfullListener.connection_backlog) ∧
    (connectClient.connect 9 ⟨[], [([115], 0)]⟩
      (fun i => if i = 0 then some overfullListener else none)
      ⟨1, [0, 115]⟩ 4).result = .ok () ∧
    (connectClient.connect 9 ⟨[], [([115], 0)]⟩
      (fun i => if i = 0 then some overfullListener else none)
      ⟨1, [0, 115]⟩ 4).target =
      some (0, { overfullListener with connection_queue := [4, 5, 9] }) :=
  ⟨rfl, rfl, by decide, rfl, rfl⟩

/-- Claim C4 amended: for every STREAM/SEQPACKET connect that reaches a
LISTENING target endpoint of matching socket type, the client is enqueued on
the target's pending-connection queue exactly when the queue size differs
from the recorded backlog, and connect fails with ECONNREFUSED leaving the
queue unchanged exactly when the queue size equals the backlog (so strictly
below the backlog still enqueues, but above it does too). -/
theorem c4_amended :
    ∀ (s : LocalSocket) (selfId : Nat) (env : BindEnv)
      (getSock : Nat → Option LocalSocket) (addr : SockaddrUn) (addrlen : Nat)
      (nm : List Nat) (tid : Nat) (t : LocalSocket),
      s.socket_type = .stream ∨ s.socket_type = .seqpacket →
      s.connect_state = .new →
      s.is_block = true →
      validateSockaddr addr addrlen = true →
      convertSockaddrToName addr addrlen = none →
      convertSockaddrToAbstractName addr addrlen = some nm →
      regLookup env.abstractReg nm = some tid →
      getSock tid = some t →
      t.socket_type = s.socket_type →
      t.connect_state = .listening →
      ((t.connection_backlog = (t.connection_queue.length : Int) →
        (s.connect selfId env getSock addr addrlen).result =
          .error .ECONNREFUSED ∧
        (s.connect selfId env getSock addr addrlen).target = some (tid, t)) ∧
      (t.connection_backlog ≠ (t.connection_queue.length : Int) →
        (s.connect selfId env getSock addr addrlen).result = .ok () ∧
        (s.connect selfId env getSock addr addrlen).target =
          some (tid, { t with
            connection_queue := t.connection_queue ++ [selfId] }))) := by
  intro s selfId env getSock addr addrlen nm tid t hty hst hblk hval hlogd
    habs hreg hget htty htst
  have hbody : s.connect selfId env getSock addr addrlen =
      (match t.handleConnectLocked selfId with
       | (false, t1) => ⟨.error .ECONNREFUSED, s, some (tid, t1), false⟩
       | (true, t1) =>
         ⟨.ok (),
           { s with logd_target_name := [], connect_state := .connecting },
           some (tid, t1), true⟩) := by
    rw [LocalSocket.connect.eq_def]
    rw [if_neg (by rw [hst]; simp)]
    rw [if_neg (by rw [hblk]; simp)]
    rw [if_neg (by rw [hval]; simp)]
    rw [hlogd, habs]
    dsimp only
    rw [hreg]
    dsimp only [Option.bind]
    rw [hget]
    dsimp only [Option.map]
    rw [if_neg (by rw [htty]; simp)]
    have hsne : (s.socket_type = .stream ∨ s.socket_type = .seqpacket) := hty
    cases hh : t.handleConnectLocked selfId with
    | mk ok t1 =>
      cases ok
      · rfl
      · dsimp only
        rw [if_pos hsne]
  have hhty : t.socket_type = .stream ∨ t.socket_type = .seqpacket := by
    rw [htty]; exact hty
  constructor
  · intro heq
    have hconn : t.handleConnectLocked selfId = (false, t) := by
      rw [LocalSocket.handleConnectLocked, if_pos hhty]
      rw [if_neg (by rw [htst]; simp)]
      rw [if_pos heq]
    rw [hbody, hconn]
    exact ⟨rfl, rfl⟩
  · intro hne
    have hconn : t.handleConnectLocked selfId =
        (true, { t with connection_queue := t.connection_queue ++ [selfId] }) := by
      rw [LocalSocket.handleConnectLocked, if_pos hhty]
      rw [if_neg (by rw [htst]; simp)]
      rw [if_neg hne]
    rw [hbody, hconn]
    exact ⟨rfl, rfl⟩

/-- A LISTENING STREAM endpoint whose pending queue (size 1) equals its
backlog (1): full. -/
def fullListener : LocalSocket :=
  { LocalSocket.init true .stream .readWrite 10 20 with
    connect_state := .listening, abstract_name := [115],
    connection_backlog := 1, connection_queue := [7] }

theorem c4_amended_witness :
    (connectClient.socket_type = .stream ∨
      connectClient.socket_type = .seqpacket) ∧
    connectClient.connect_state = .new ∧
    connectClient.is_block = true ∧
    validateSockaddr ⟨1, [0, 115]⟩ 4 = true ∧
    convertSockaddrToName ⟨1, [0, 115]⟩ 4 = none ∧
    convertSockaddrToAbstractName ⟨1, [0, 115]⟩ 4 = some [115] ∧
    regLookup [([115], 0)] [115] = some 0 ∧
    (fun i => if i = 0 then some fullListener else none) 0 =
      some fullListener ∧
    fullListener.socket_type = connectClient.socket_type ∧
    fullListener.connect_state = .listening ∧
    fullListener.connection_backlog =
      (fullListener.connection_queue.length : Int) ∧
    (connectClient.connect 9 ⟨[], [([115], 0)]⟩
      (fun i => if i = 0 then some fullListener else none)
      ⟨1, [0, 115]⟩ 4).result = .error .ECONNREFUSED ∧
    (connectClient.connect 9 ⟨[], [([115], 0)]⟩
      (fun i => if i = 0 then some fullListener else none)
      ⟨1, [0, 115]⟩ 4).target = some (0, fullListener) :=
  ⟨Or.inl rfl, rfl, rfl, by decide, by decide, by decide, by decide, rfl, rfl,
   rfl, by decide,
   ((c4_amended connectClient 9 ⟨[], [([115], 0)]⟩
      (fun i => if i = 0 then some fullListener else none) ⟨1, [0, 115]⟩ 4
      [115] 0 fullListener (Or.inl rfl) rfl rfl (by decide) (by decide)
      (by decide) (by decide) rfl rfl rfl).1 (by decide)).1,
   ((c4_amended connectClient 9 ⟨[], [([115], 0)]⟩
      (fun i => if i = 0 then some fullListener else none) ⟨1, [0, 115]⟩ 4
      [115] 0 fullListener (Or.inl rfl) rfl rfl (by decide) (by decide)
      (by decide) (by decide) rfl rfl rfl).1 (by decide)).2⟩

/-- A CONNECTED STREAM endpoint that also holds a bound abstract name (bind
then connect, in that order, produces this state). -/
def connectedBoundStream : LocalSocket :=
  { pairedStream with abstract_name := [120] }

/-- Claim C5 counterexample: listen on a bound, CONNECTED, STREAM endpoint
succeeds and moves the endpoint from CONNECTED to LISTENING, where the claim
says no operation ever moves an endpoint away from CONNECTED. -/
theorem c5_counterexample :
    connectedBoundStream.connect_state = .connected ∧
    (connectedBoundStream.listen 5).1 = .ok () ∧
    ((connectedBoundStream.listen 5).2).connect_state = .listening ∧
    ConnectState.listening ≠ ConnectState.connected :=
  ⟨rfl, rfl, rfl, by decide⟩

/-- Claim C5 amended: once an endpoint is CONNECTED, connect refuses with
EISCONN leaving the endpoint untouched, bind never changes the connection
state, and set_peer keeps the endpoint CONNECTED; listen, however, does move
a bound non-DGRAM CONNECTED endpoint to LISTENING (the only escape from
CONNECTED; CONNECTED with a null peer still only means half-closed). -/
theorem c5_amended :
    (∀ (s : LocalSocket) (selfId : Nat) (env : BindEnv)
       (getSock : Nat → Option LocalSocket) (addr : SockaddrUn)
       (addrlen : Nat),
      s.connect_state = .connected →
      (s.connect selfId env getSock addr addrlen).result = .error .EISCONN ∧
      (s.connect selfId env getSock addr addrlen).self = s) ∧
    (∀ (s : LocalSocket) (selfId : Nat) (env : BindEnv) (addr : SockaddrUn)
       (addrlen : Nat),
      ((s.bind selfId env addr addrlen).sock).connect_state =
        s.connect_state) ∧
    (∀ (s : LocalSocket) (id : Nat) (p : LocalSocket),
      (s.set_peer id p).connect_state = .connected) := by
  refine ⟨?_, ?_, fun s id p => rfl⟩
  · intro s selfId env getSock addr addrlen h
    rw [LocalSocket.connect.eq_def, if_pos (Or.inl h)]
    exact ⟨rfl, rfl⟩
  · intro s selfId env addr addrlen
    rw [LocalSocket.bind.eq_def]
    split
    · rfl
    · split
      · rfl
      · split
        · split <;> rfl
        · split
          · split <;> rfl
          · rfl

theorem c5_amended_witness :
    pairedStream.connect_state = .connected ∧
    (pairedStream.connect 0 ⟨[], []⟩ (fun _ => none) ⟨1, [0]⟩ 3).result =
      .error .EISCONN ∧
    (pairedStream.connect 0 ⟨[], []⟩ (fun _ => none) ⟨1, [0]⟩ 3).self =
      pairedStream :=
  ⟨rfl,
   (c5_amended.1 pairedStream 0 ⟨[], []⟩ (fun _ => none) ⟨1, [0]⟩ 3 rfl).1,
   (c5_amended.1 pairedStream 0 ⟨[], []⟩ (fun _ => none) ⟨1, [0]⟩ 3 rfl).2⟩

/-- A fresh STREAM endpoint about to bind. -/
def freshBindSock : LocalSocket := LocalSocket.init true .stream .readWrite 10 20

/-- An empty pair of name registries. -/
def emptyEnv : BindEnv := ⟨[], []⟩

/-- sockaddr_un selecting the empty abstract name: sun_path starts with NUL
and addrlen covers exactly that one byte. -/
def bindAddrEmptyAbstract : SockaddrUn := ⟨1, [0]⟩

/-- sockaddr_un selecting the one-byte abstract name "x". -/
def bindAddrX : SockaddrUn := ⟨1, [0, 120]⟩

/-- Claim C6 counterexample: a bind to the empty abstract name (leading NUL,
addrlen = offsetof(sun_path) + 1) succeeds but records no name on the
endpoint, so a second bind on the same endpoint succeeds as well, where the
claim requires every bind after a successful one to fail with EINVAL. -/
theorem c6_counterexample :
    (freshBindSock.bind 0 emptyEnv bindAddrEmptyAbstract 3).result = .ok () ∧
    ((freshBindSock.bind 0 emptyEnv bindAddrEmptyAbstract 3).sock.bind 0
      (freshBindSock.bind 0 emptyEnv bindAddrEmptyAbstract 3).env
      bindAddrX 4).result = .ok () :=
  ⟨rfl, rfl⟩

/-- Any endpoint that already holds a name refuses bind with EINVAL (even
before consulting the registries; an invalid sockaddr also yields EINVAL). -/
theorem bind_named_einval (s : LocalSocket) (selfId : Nat) (env : BindEnv)
    (addr : SockaddrUn) (addrlen : Nat)
    (h : s.abstract_name ≠ [] ∨ s.logd_name ≠ []) :
    (s.bind selfId env addr addrlen).result = .error .EINVAL := by
  rw [LocalSocket.bind.eq_def]
  by_cases hv : ¬ validateSockaddr addr addrlen = true
  · rw [if_pos hv]
  · rw [if_neg hv, if_pos h]

/-- Claim C6 amended: a successful bind that records a non-empty name (any
logd name, or an abstract name with addrlen > offsetof(sun_path) + 1) makes
every subsequent bind on the same endpoint fail with EINVAL; only a
successful bind to the empty abstract name leaves the endpoint nameless and
lets a later bind succeed. -/
theorem c6_amended :
    ∀ (s : LocalSocket) (selfId : Nat) (env : BindEnv) (addr : SockaddrUn)
      (addrlen : Nat),
      (s.bind selfId env addr addrlen).result = .ok () →
      ((s.bind selfId env addr addrlen).sock.abstract_name ≠ [] ∨
        (s.bind selfId env addr addrlen).sock.logd_name ≠ []) →
      ∀ (selfId2 : Nat) (env2 : BindEnv) (addr2 : SockaddrUn)
        (addrlen2 : Nat),
        ((s.bind selfId env addr addrlen).sock.bind selfId2 env2 addr2
          addrlen2).result = .error .EINVAL := by
  intro s selfId env addr addrlen _ hname selfId2 env2 addr2 addrlen2
  exact bind_named_einval _ selfId2 env2 addr2 addrlen2 hname

/-- sockaddr_un holding the logd pathname "a". -/
def bindAddrLogd : SockaddrUn := ⟨1, [97]⟩

theorem c6_amended_witness :
    (freshBindSock.bind 0 emptyEnv bindAddrLogd 3).result = .ok () ∧
    ((freshBindSock.bind 0 emptyEnv bindAddrLogd 3).sock.abstract_name ≠ [] ∨
      (freshBindSock.bind 0 emptyEnv bindAddrLogd 3).sock.logd_name ≠ []) ∧
    ((freshBindSock.bind 0 emptyEnv bindAddrLogd 3).sock.bind 1 emptyEnv
      bindAddrX 4).result = .error .EINVAL :=
  ⟨rfl, Or.inr (by decide),
   c6_amended freshBindSock 0 emptyEnv bindAddrLogd 3 rfl (Or.inr (by decide))
     1 emptyEnv bindAddrX 4⟩

end LocalSocketModel
